import Mathlib

/-!
Verification development for the frepple forecast module
(src/modules/forecast/forecast.h).

The module models a bucketized demand forecast (class `Forecast` owning
`ForecastBucket` sub-demands) and a netting solver (`ForecastSolver`).
Dates are modelled as integers, quantities and weights as rationals
(the C++ code uses `float`; we verify the exact arithmetic), pointers to
items / customers / operations as natural numbers (0 playing the role of
the null pointer), and exceptions as an `Option String` error component
returned next to the (unchanged, on error) state.

Function bodies present in the header (the `ForecastBucket` constructor,
`~Forecast`, `Forecast::setQuantity(float)`, `Forecast::setDue`) are
translated from that source.  Bodies that live in the module's .cpp file
(not part of the given sources) are modelled from the specification and
are marked `Modelled from the spec:` in their doc comment.
-/

/-- A date, as in the C++ `Date` class: a point on a discrete time axis. -/
abbrev FDate := Int

/-- A date range `[st, en)` as in the C++ `DateRange` class. -/
structure FDateRange where
  st : FDate
  en : FDate
deriving DecidableEq, Repr

/-- The fields of the C++ `Demand` base class that the forecast module
reads or writes: name, owner (held here as the owning forecast name),
hidden flag, item pointer, due date, priority, policy strings, delivery
operation pointer and the demand quantity. -/
structure Demand where
  name : String
  owner : Option String := none
  hidden : Bool := false
  item : Nat := 0
  customer : Nat := 0
  due : FDate := 0
  priority : Int := 0
  policies : List String := []
  operation : Nat := 0
  quantity : Rat := 0
deriving DecidableEq, Repr

/-- `Demand(name)` base-class constructor: all other fields default. -/
def demandInit (nm : String) : Demand := { name := nm }

/-- `Demand::setOwner`. -/
def Demand.setOwner (d : Demand) (o : String) : Demand := { d with owner := some o }

/-- `Demand::setHidden`. -/
def Demand.setHidden (d : Demand) (b : Bool) : Demand := { d with hidden := b }

/-- `Demand::setItem` on the base class: plain field update. -/
def Demand.setItemBase (d : Demand) (i : Nat) : Demand := { d with item := i }

/-- `Demand::setCustomer` on the base class: plain field update. -/
def Demand.setCustomerBase (d : Demand) (c : Nat) : Demand := { d with customer := c }

/-- `Demand::setDue` on the base class: plain field update. -/
def Demand.setDueBase (d : Demand) (t : FDate) : Demand := { d with due := t }

/-- `Demand::setPriority` on the base class: plain field update. -/
def Demand.setPriorityBase (d : Demand) (p : Int) : Demand := { d with priority := p }

/-- `Demand::addPolicy` on the base class: appends a policy string. -/
def Demand.addPolicyBase (d : Demand) (p : String) : Demand :=
  { d with policies := d.policies ++ [p] }

/-- `Demand::setOperation` on the base class: plain field update. -/
def Demand.setOperationBase (d : Demand) (o : Nat) : Demand := { d with operation := o }

/-- `Demand::setQuantity(float)` on the base class: plain field update
(this is what a `ForecastBucket` inherits and uses). -/
def Demand.setQuantityBase (d : Demand) (q : Rat) : Demand := { d with quantity := q }

/-- The calendar interface the forecast core consumes, modelled from the
spec: `bucketBoundariesOver(horizon)` yields an ordered sequence of
`(start, end, weight)` bucket boundary triples. -/
structure Calendar where
  intervals : List (FDate × FDate × Rat)
deriving DecidableEq, Repr

/-- `Forecast::ForecastBucket`: a hidden sub-demand holding one time
bucket's weight, interval and remaining quantity (the quantity lives in
the inherited `Demand` part). -/
structure ForecastBucket where
  base : Demand
  weight : Rat
  timebucket : FDate × FDate
deriving DecidableEq, Repr

/-- The remaining quantity of a bucket (stored in its `Demand` base). -/
def ForecastBucket.qty (b : ForecastBucket) : Rat := b.base.quantity

/-- Overwrite a bucket's quantity through the inherited
`Demand::setQuantity`. -/
def ForecastBucket.setQty (b : ForecastBucket) (q : Rat) : ForecastBucket :=
  { b with base := b.base.setQuantityBase q }

/-- The `Forecast` entity: name, item and customer pointers (the
dictionary key), priority, delivery operation, the plan-late /
plan-short and single- / multiple-delivery policies, the optional void
calendar `calptr` and the owned buckets. -/
structure Forecast where
  name : String
  item : Nat := 0
  customer : Nat := 0
  priority : Int := 0
  operation : Nat := 0
  planLate : Bool := false
  planSingleDelivery : Bool := false
  calptr : Option Calendar := none
  buckets : List ForecastBucket := []
deriving DecidableEq, Repr

/-- The `ForecastBucket(Forecast* f, Date d, Date e, float w)`
constructor, translated from the header: initialize the `Demand` base
with name `f->getName() + " - " + string(d)`, store the weight and the
time bucket `(d, e)`, then `setOwner(f)`, `setHidden(true)`,
`setItem(f->getItem())`, `setDue(d)`, `setPriority(f->getPriority())`,
`addPolicy(PLANLATE/PLANSHORT)`, `addPolicy(SINGLEDELIVERY/MULTIDELIVERY)`
and `setOperation(f->getOperation())`. -/
def mkForecastBucket (f : Forecast) (d e : FDate) (w : Rat) : ForecastBucket :=
  { base :=
      ((((((((demandInit (f.name ++ " - " ++ toString d)).setOwner
        f.name).setHidden true).setItemBase f.item).setDueBase
        d).setPriorityBase f.priority).addPolicyBase
        (if f.planLate then "PLANLATE" else "PLANSHORT")).addPolicyBase
        (if f.planSingleDelivery then "SINGLEDELIVERY" else "MULTIDELIVERY")).setOperationBase
        f.operation
    weight := w
    timebucket := (d, e) }

/-- `Forecast::setQuantity(float)`, translated from the header: it only
throws `DataException("Can't set quantity of a forecast")`; the forecast
is returned unchanged next to the error. -/
def Forecast.setQuantityFloat (f : Forecast) (_ : Rat) : Forecast × Option String :=
  (f, some "Cannot set quantity of a forecast")

/-- `Forecast::setDue(Date)`, translated from the header: it only throws
`DataException("Can't set due date of a forecast")`; the forecast is
returned unchanged next to the error. -/
def Forecast.setDue (f : Forecast) (_ : FDate) : Forecast × Option String :=
  (f, some "Cannot set due date of a forecast")

/-- C5: on a `Forecast` aggregate, `setQuantity(float)` and
`setDue(Date)` always fail with a `DataException` and modify no state,
for every forecast and every argument. -/
theorem forecast_setQuantityFloat_setDue_always_fail (f : Forecast) (q : Rat) (d : FDate) :
    (f.setQuantityFloat q).2.isSome = true ∧ (f.setQuantityFloat q).1 = f ∧
    (f.setDue d).2.isSome = true ∧ (f.setDue d).1 = f := by
  refine ⟨rfl, rfl, rfl, rfl⟩

/-- C9: a `ForecastBucket` built by the constructor is owned by its
forecast, hidden, has due date equal to the bucket start, name equal to
the owner's name plus " - " plus the start date, and mirrors the
owner's item, priority, operation, plan-late/plan-short policy and
single/multiple-delivery policy as they are at creation time. -/
theorem forecastBucket_ctor_invariants (f : Forecast) (d e : FDate) (w : Rat) :
    (mkForecastBucket f d e w).base.owner = some f.name ∧
    (mkForecastBucket f d e w).base.hidden = true ∧
    (mkForecastBucket f d e w).base.due = d ∧
    (mkForecastBucket f d e w).base.name = f.name ++ " - " ++ toString d ∧
    (mkForecastBucket f d e w).base.item = f.item ∧
    (mkForecastBucket f d e w).base.priority = f.priority ∧
    (mkForecastBucket f d e w).base.operation = f.operation ∧
    (mkForecastBucket f d e w).base.policies =
      [if f.planLate then "PLANLATE" else "PLANSHORT",
       if f.planSingleDelivery then "SINGLEDELIVERY" else "MULTIDELIVERY"] ∧
    (mkForecastBucket f d e w).weight = w ∧
    (mkForecastBucket f d e w).timebucket = (d, e) := by
  refine ⟨rfl, rfl, rfl, rfl, rfl, rfl, rfl, rfl, rfl, rfl⟩

/-- Signed overlap of a bucket's time interval `[start, end)` with a
date range: positive exactly when the two half-open intervals intersect. -/
def ovl (b : ForecastBucket) (r : FDateRange) : Int :=
  min b.timebucket.2 r.en - max b.timebucket.1 r.st

/-- Whether a bucket's interval intersects the date range. -/
def ForecastBucket.intersects (b : ForecastBucket) (r : FDateRange) : Bool :=
  decide (0 < ovl b r)

/-- The overlapping duration (clamped at zero) of bucket and range. -/
def overlapDur (b : ForecastBucket) (r : FDateRange) : Int :=
  max (ovl b r) 0

/-- The weight contribution of a bucket to a distribution call:
its calendar weight times the overlapping duration. -/
def weightContribution (b : ForecastBucket) (r : FDateRange) : Rat :=
  b.weight * ((overlapDur b r : Int) : Rat)

/-- Total weight of a distribution call: the sum of the weight
contributions of the buckets intersecting the range. -/
def totalWeight (bs : List ForecastBucket) (r : FDateRange) : Rat :=
  ((bs.filter (fun b => b.intersects r)).map (fun b => weightContribution b r)).sum

/-- Whether a bucket's half-open interval `[start, end)` contains an
instant. -/
def ForecastBucket.containsDate (b : ForecastBucket) (t : FDate) : Bool :=
  decide (b.timebucket.1 ≤ t) && decide (t < b.timebucket.2)

/-- Overwrite the quantity of the first bucket whose interval contains
the instant; `none` when no bucket does. -/
def setAtInstant : List ForecastBucket → FDate → Rat → Option (List ForecastBucket)
  | [], _, _ => none
  | b :: bs, t, q =>
    if b.containsDate t then some (b.setQty q :: bs)
    else (setAtInstant bs t q).map (fun l => b :: l)

/-- `Forecast::setQuantity(const DateRange&, float)`.  Modelled from the
spec (its body lives in the module's .cpp file, which is not among the
given sources; the header's doc comment states the same logic):
  - precondition: a calendar must be assigned, otherwise a
    data-validation error;
  - degenerate range (start = end): overwrite the quantity of the bucket
    containing the instant, error if none exists;
  - otherwise: distribute `q` over the intersecting buckets in
    proportion to their weight contributions, with a data-validation
    error when the total intersecting weight is zero.
Errors are returned next to the unchanged forecast. -/
def Forecast.setQuantityRange (f : Forecast) (r : FDateRange) (q : Rat) :
    Forecast × Option String :=
  match f.calptr with
  | none => (f, some "quantity assigned to a forecast without calendar")
  | some _ =>
    if r.st = r.en then
      match setAtInstant f.buckets r.st q with
      | some bs => ({ f with buckets := bs }, none)
      | none => (f, some "no forecast bucket found at this date")
    else
      if totalWeight f.buckets r = 0 then
        (f, some "forecast quantity assigned to a date range with no capacity")
      else
        ({ f with buckets := f.buckets.map (fun b =>
            if b.intersects r then
              b.setQty (b.qty + q * (weightContribution b r / totalWeight f.buckets r))
            else b) },
         none)

theorem qty_setQty (b : ForecastBucket) (q : Rat) : (b.setQty q).qty = q := rfl

theorem sum_qty_update (r : FDateRange) (q tw : Rat) (bs : List ForecastBucket) :
    ((bs.map (fun b => if b.intersects r then
        b.setQty (b.qty + q * (weightContribution b r / tw)) else b)).map
          ForecastBucket.qty).sum
      = (bs.map ForecastBucket.qty).sum
        + q / tw *
          ((bs.filter (fun b => b.intersects r)).map (fun b => weightContribution b r)).sum := by
  induction bs with
  | nil => simp
  | cons b bs ih =>
    by_cases hb : b.intersects r
    · simp only [List.map_cons, List.filter_cons, hb, if_pos, List.sum_cons, ih, qty_setQty]
      ring
    · simp only [List.map_cons, List.filter_cons, hb, if_neg, Bool.false_eq_true,
        not_false_iff, List.sum_cons, ih]
      ring

/-- C1: a non-degenerate `setQuantity(range, qty)` call with nonzero
total intersecting weight succeeds, increments each intersecting bucket
by `qty * (weightContribution / totalWeight)` while leaving
non-intersecting buckets unchanged, and the sum of all increments is
exactly `qty` (quantities are exact rationals here; in the C++ code the
identity holds up to floating-point rounding). -/
theorem setQuantityRange_distribution_conserves (f : Forecast) (r : FDateRange) (q : Rat)
    (hcal : f.calptr.isSome = true) (hne : r.st ≠ r.en)
    (htw : totalWeight f.buckets r ≠ 0) :
    (f.setQuantityRange r q).2 = none ∧
    (f.setQuantityRange r q).1.buckets = f.buckets.map (fun b =>
      if b.intersects r then
        b.setQty (b.qty + q * (weightContribution b r / totalWeight f.buckets r))
      else b) ∧
    ((f.setQuantityRange r q).1.buckets.map ForecastBucket.qty).sum
      = (f.buckets.map ForecastBucket.qty).sum + q := by
  obtain ⟨c, hc⟩ := Option.isSome_iff_exists.mp hcal
  have hres : f.setQuantityRange r q =
      ({ f with buckets := f.buckets.map (fun b =>
          if b.intersects r then
            b.setQty (b.qty + q * (weightContribution b r / totalWeight f.buckets r))
          else b) }, none) := by
    unfold Forecast.setQuantityRange
    rw [hc]
    simp [hne, htw]
  refine ⟨by rw [hres], by rw [hres], ?_⟩
  rw [hres]
  simp only
  rw [sum_qty_update]
  have hfil : ((f.buckets.filter (fun b => b.intersects r)).map
      (fun b => weightContribution b r)).sum = totalWeight f.buckets r := rfl
  rw [hfil, div_mul_cancel₀ q htw]

def c1B1 : ForecastBucket := { base := demandInit "b1", weight := 1, timebucket := (0, 10) }

def c1B2 : ForecastBucket := { base := demandInit "b2", weight := 3, timebucket := (10, 20) }

def c1F : Forecast := { name := "FC1", calptr := some ⟨[]⟩, buckets := [c1B1, c1B2] }

def c1R : FDateRange := ⟨0, 20⟩

theorem c1TW : totalWeight c1F.buckets c1R ≠ 0 := by
  norm_num [totalWeight, weightContribution, overlapDur, ovl, ForecastBucket.intersects,
    c1F, c1B1, c1B2, c1R]

theorem setQuantityRange_distribution_conserves_witness :
    (c1F.calptr.isSome = true ∧ c1R.st ≠ c1R.en ∧ totalWeight c1F.buckets c1R ≠ 0) ∧
    ((c1F.setQuantityRange c1R 8).1.buckets.map ForecastBucket.qty).sum
      = (c1F.buckets.map ForecastBucket.qty).sum + 8 :=
  ⟨⟨rfl, by decide, c1TW⟩,
   (setQuantityRange_distribution_conserves c1F c1R 8 rfl (by decide) c1TW).2.2⟩
theorem setAtInstant_none_iff (bs : List ForecastBucket) (t : FDate) (q : Rat) :
    setAtInstant bs t q = none ↔ ∀ b ∈ bs, b.containsDate t = false := by
  induction bs with
  | nil => simp [setAtInstant]
  | cons b bs ih =>
    by_cases hb : b.containsDate t
    · simp [setAtInstant, hb]
    · have hb' : b.containsDate t = false := by simpa using hb
      rw [setAtInstant, if_neg hb, Option.map_eq_none', ih]
      constructor
      · intro h x hx
        rcases List.mem_cons.mp hx with rfl | hx2
        · exact hb'
        · exact h x hx2
      · intro h x hx
        exact h x (List.mem_cons_of_mem b hx)

theorem setAtInstant_some_spec (bs : List ForecastBucket) (t : FDate) (q : Rat)
    (l : List ForecastBucket) (h : setAtInstant bs t q = some l) :
    ∃ i, ∃ hi : i < bs.length, (bs.get ⟨i, hi⟩).containsDate t = true ∧
      l = bs.set i ((bs.get ⟨i, hi⟩).setQty q) := by
  induction bs generalizing l with
  | nil => simp [setAtInstant] at h
  | cons b bs ih =>
    by_cases hb : b.containsDate t
    · rw [setAtInstant, if_pos hb] at h
      refine ⟨0, by simp, hb, ?_⟩
      simpa using (Option.some_inj.mp h).symm
    · rw [setAtInstant, if_neg hb] at h
      obtain ⟨l2, hl2, hcons⟩ := Option.map_eq_some'.mp h
      obtain ⟨i, hi, hcont, rfl⟩ := ih l2 hl2
      refine ⟨i + 1, by simpa using Nat.succ_lt_succ hi, hcont, ?_⟩
      exact hcons.symm

/-- C3: a degenerate `setQuantity` call (start = end) on a forecast with
a calendar: when some bucket's interval contains the instant, the first
such bucket's quantity is overwritten to exactly `qty` and all other
buckets are unchanged; when no bucket contains the instant, the call
fails with a data-validation error and the forecast is unchanged. -/
theorem setQuantityRange_degenerate_exactness (f : Forecast) (r : FDateRange) (q : Rat)
    (hcal : f.calptr.isSome = true) (heq : r.st = r.en) :
    ((∃ b ∈ f.buckets, b.containsDate r.st = true) →
      (f.setQuantityRange r q).2 = none ∧
      ∃ i, ∃ hi : i < f.buckets.length,
        (f.buckets.get ⟨i, hi⟩).containsDate r.st = true ∧
        (f.setQuantityRange r q).1.buckets =
          f.buckets.set i ((f.buckets.get ⟨i, hi⟩).setQty q)) ∧
    ((∀ b ∈ f.buckets, b.containsDate r.st = false) →
      (f.setQuantityRange r q).2.isSome = true ∧ (f.setQuantityRange r q).1 = f) := by
  obtain ⟨c, hc⟩ := Option.isSome_iff_exists.mp hcal
  constructor
  · intro hex
    cases hsa : setAtInstant f.buckets r.st q with
    | none =>
      rw [setAtInstant_none_iff] at hsa
      obtain ⟨b, hb, hbc⟩ := hex
      rw [hsa b hb] at hbc
      cases hbc
    | some l =>
      have hsa2 : setAtInstant f.buckets r.en q = some l := heq ▸ hsa
      have hres : f.setQuantityRange r q = ({ f with buckets := l }, none) := by
        unfold Forecast.setQuantityRange
        rw [hc]
        simp [heq, hsa2]
      obtain ⟨i, hi, hcont, rfl⟩ := setAtInstant_some_spec f.buckets r.st q l hsa
      exact ⟨by rw [hres], i, hi, hcont, by rw [hres]⟩
  · intro hall
    have hsa : setAtInstant f.buckets r.st q = none :=
      (setAtInstant_none_iff f.buckets r.st q).mpr hall
    have hsa2 : setAtInstant f.buckets r.en q = none := heq ▸ hsa
    have hres : f.setQuantityRange r q =
        (f, some "no forecast bucket found at this date") := by
      unfold Forecast.setQuantityRange
      rw [hc]
      simp [heq, hsa2]
    rw [hres]
    exact ⟨rfl, rfl⟩

def c3B : ForecastBucket := { base := demandInit "b3", weight := 1, timebucket := (0, 10) }

def c3F : Forecast := { name := "FC3", calptr := some ⟨[]⟩, buckets := [c3B] }

def c3R : FDateRange := ⟨5, 5⟩

theorem setQuantityRange_degenerate_exactness_witness :
    (c3F.calptr.isSome = true ∧ c3R.st = c3R.en ∧
      (∃ b ∈ c3F.buckets, b.containsDate c3R.st = true)) ∧
    ((c3F.setQuantityRange c3R 7).2 = none ∧
      ∃ i, ∃ hi : i < c3F.buckets.length,
        (c3F.buckets.get ⟨i, hi⟩).containsDate c3R.st = true ∧
        (c3F.setQuantityRange c3R 7).1.buckets =
          c3F.buckets.set i ((c3F.buckets.get ⟨i, hi⟩).setQty 7)) :=
  ⟨⟨rfl, rfl, by decide⟩,
   (setQuantityRange_degenerate_exactness c3F c3R 7 rfl rfl).1 (by decide)⟩

def c2B : ForecastBucket := { base := demandInit "b2z", weight := 0, timebucket := (0, 10) }

def c2F : Forecast := { name := "FC2", calptr := some ⟨[]⟩, buckets := [c2B] }

def c2R : FDateRange := ⟨5, 5⟩

/-- C2 counterexample: for the degenerate range `[5, 5)` every
intersecting bucket trivially has weight 0 (and the only bucket present
even carries weight 0), yet `setQuantity` succeeds — the degenerate
branch overwrites the containing bucket's quantity without any weight
check — so the call neither fails nor leaves the quantities unchanged. -/
theorem setQuantityRange_zero_weight_degenerate_cex :
    (∀ b ∈ c2F.buckets, b.intersects c2R = true → b.weight = 0) ∧
    (∀ b ∈ c2F.buckets, b.weight = 0) ∧
    (c2F.setQuantityRange c2R 7).2 = none ∧
    (c2F.setQuantityRange c2R 7).1.buckets.map ForecastBucket.qty = [7] ∧
    c2F.buckets.map ForecastBucket.qty = [0] := by
  refine ⟨by decide, by decide, by decide, by decide, by decide⟩

theorem totalWeight_eq_zero (bs : List ForecastBucket) (r : FDateRange)
    (hw : ∀ b ∈ bs, b.intersects r = true → b.weight = 0) :
    totalWeight bs r = 0 := by
  apply List.sum_eq_zero
  intro x hx
  simp only [List.mem_map, List.mem_filter] at hx
  obtain ⟨b, ⟨hb, hbi⟩, rfl⟩ := hx
  rw [weightContribution, hw b hb hbi, zero_mul]

/-- C2 (amended): a non-degenerate `setQuantity(range, qty)` call in
which every bucket intersecting the range has weight 0 fails with a
data-validation error and leaves every bucket quantity unchanged.
(The original claim, quantified over every call, fails on degenerate
ranges, where the containing bucket is overwritten with no weight
check.) -/
theorem setQuantityRange_zero_weight_rejected (f : Forecast) (r : FDateRange) (q : Rat)
    (hne : r.st ≠ r.en)
    (hw : ∀ b ∈ f.buckets, b.intersects r = true → b.weight = 0) :
    (f.setQuantityRange r q).2.isSome = true ∧ (f.setQuantityRange r q).1 = f := by
  have htw : totalWeight f.buckets r = 0 := totalWeight_eq_zero f.buckets r hw
  cases hcc : f.calptr with
  | none =>
    unfold Forecast.setQuantityRange
    rw [hcc]
    exact ⟨rfl, rfl⟩
  | some c =>
    unfold Forecast.setQuantityRange
    rw [hcc]
    simp [hne, htw]

def c2G : Forecast := { name := "FC2G", calptr := some ⟨[]⟩, buckets := [c2B] }

def c2S : FDateRange := ⟨0, 10⟩

theorem setQuantityRange_zero_weight_rejected_witness :
    (c2S.st ≠ c2S.en ∧ (∀ b ∈ c2G.buckets, b.intersects c2S = true → b.weight = 0)) ∧
    ((c2G.setQuantityRange c2S 5).2.isSome = true ∧ (c2G.setQuantityRange c2S 5).1 = c2G) :=
  ⟨⟨by decide, by decide⟩,
   setQuantityRange_zero_weight_rejected c2G c2S 5 (by decide) (by decide)⟩

/-- `Forecast::setCalendar(const Calendar*)`.  Modelled from the spec
(its body lives in the module's .cpp file, not among the given sources;
the header doc comment states the lock): rejected with a data-validation
error when any bucket already carries a nonzero quantity; otherwise the
existing buckets are discarded and one zero-quantity bucket is created
per calendar-defined interval, inheriting the calendar weight. -/
def Forecast.setCalendar (f : Forecast) (c : Calendar) : Forecast × Option String :=
  if f.buckets.any (fun b => decide (b.qty ≠ 0)) then
    (f, some "calendar of a forecast with quantities can no longer be updated")
  else
    ({ f with
        calptr := some c
        buckets := c.intervals.map (fun iv => mkForecastBucket f iv.1 iv.2.1 iv.2.2) },
     none)

/-- C4: `setCalendar` on a forecast with some nonzero bucket quantity
fails with a data-validation error and changes nothing; on a forecast
whose bucket quantities are all zero it succeeds, stores the calendar
and replaces the buckets with one zero-quantity bucket per calendar
interval, each bucket carrying the calendar interval's bounds and
weight. -/
theorem setCalendar_lock (f : Forecast) (c : Calendar) :
    ((∃ b ∈ f.buckets, b.qty ≠ 0) →
      (f.setCalendar c).2.isSome = true ∧ (f.setCalendar c).1 = f) ∧
    ((∀ b ∈ f.buckets, b.qty = 0) →
      (f.setCalendar c).2 = none ∧
      (f.setCalendar c).1.calptr = some c ∧
      (f.setCalendar c).1.buckets =
        c.intervals.map (fun iv => mkForecastBucket f iv.1 iv.2.1 iv.2.2) ∧
      (∀ b ∈ (f.setCalendar c).1.buckets, b.qty = 0) ∧
      (∀ i : Nat, ((f.setCalendar c).1.buckets[i]?).map ForecastBucket.weight
          = (c.intervals[i]?).map (fun iv => iv.2.2)) ∧
      (∀ i : Nat, ((f.setCalendar c).1.buckets[i]?).map ForecastBucket.timebucket
          = (c.intervals[i]?).map (fun iv => (iv.1, iv.2.1)))) := by
  constructor
  · intro hex
    have hany : f.buckets.any (fun b => decide (b.qty ≠ 0)) = true := by
      obtain ⟨b, hb, hbq⟩ := hex
      exact List.any_eq_true.mpr ⟨b, hb, by simpa using hbq⟩
    rw [Forecast.setCalendar, if_pos hany]
    exact ⟨rfl, rfl⟩
  · intro hall
    have hany : ¬ (f.buckets.any (fun b => decide (b.qty ≠ 0)) = true) := by
      rw [List.any_eq_true]
      rintro ⟨b, hb, hbq⟩
      exact (by simpa using hbq : b.qty ≠ 0) (hall b hb)
    rw [Forecast.setCalendar, if_neg hany]
    refine ⟨rfl, rfl, rfl, ?_, ?_, ?_⟩
    · intro b hb
      simp only [List.mem_map] at hb
      obtain ⟨iv, hiv, rfl⟩ := hb
      rfl
    · intro i
      simp only [List.getElem?_map]
      cases c.intervals[i]? <;> rfl
    · intro i
      simp only [List.getElem?_map]
      cases c.intervals[i]? <;> rfl

def c4Cal : Calendar := ⟨[(0, 10, 1), (10, 20, 2)]⟩

def c4BQ : ForecastBucket :=
  { base := { name := "b4", quantity := 5 }, weight := 1, timebucket := (0, 10) }

def c4FQ : Forecast := { name := "FC4Q", buckets := [c4BQ] }

def c4F0 : Forecast := { name := "FC40", buckets := [] }

theorem setCalendar_lock_witness :
    ((∃ b ∈ c4FQ.buckets, b.qty ≠ 0) ∧ (∀ b ∈ c4F0.buckets, b.qty = 0)) ∧
    ((c4FQ.setCalendar c4Cal).2.isSome = true ∧ (c4FQ.setCalendar c4Cal).1 = c4FQ) ∧
    ((c4F0.setCalendar c4Cal).2 = none ∧
      (c4F0.setCalendar c4Cal).1.calptr = some c4Cal ∧
      (c4F0.setCalendar c4Cal).1.buckets =
        c4Cal.intervals.map (fun iv => mkForecastBucket c4F0 iv.1 iv.2.1 iv.2.2) ∧
      (∀ b ∈ (c4F0.setCalendar c4Cal).1.buckets, b.qty = 0) ∧
      (∀ i : Nat, ((c4F0.setCalendar c4Cal).1.buckets[i]?).map ForecastBucket.weight
          = (c4Cal.intervals[i]?).map (fun iv => iv.2.2)) ∧
      (∀ i : Nat, ((c4F0.setCalendar c4Cal).1.buckets[i]?).map ForecastBucket.timebucket
          = (c4Cal.intervals[i]?).map (fun iv => (iv.1, iv.2.1)))) :=
  ⟨⟨by decide, by decide⟩,
   (setCalendar_lock c4FQ c4Cal).1 (by decide),
   (setCalendar_lock c4F0 c4Cal).2 (by decide)⟩

/-- `ForecastSolver`: name and the flag controlling incremental
(automatic) behavior; the constructor initializes `automatic` to false
(manual mode). -/
structure ForecastSolver where
  name : String
  automatic : Bool := false
deriving DecidableEq, Repr

/-- Modelled from the spec: the plan-short netting step of
`ForecastSolver::solve(const Demand*, void*)` (its body lives in the
module's .cpp file, not among the given sources).  The first bucket
whose interval contains the order's due date has its remaining quantity
decremented by the order quantity, clamped at zero; the remainder is
left un-netted and all other buckets are untouched. -/
def netBucketsShort : List ForecastBucket → FDate → Rat → List ForecastBucket
  | [], _, _ => []
  | b :: bs, due, q =>
    if b.containsDate due then
      (if q ≤ b.qty then b.setQty (b.qty - q) else b.setQty 0) :: bs
    else b :: netBucketsShort bs due q

/-- Modelled from the spec: plan-late carry-over — zero the bucket and
carry the excess forward to the next buckets with remaining capacity
(excess surviving past the horizon end is dropped, an implementation
choice the spec flags as unspecified). -/
def carryForwardLate : List ForecastBucket → Rat → List ForecastBucket
  | [], _ => []
  | b :: bs, q =>
    if q ≤ b.qty then b.setQty (b.qty - q) :: bs
    else b.setQty 0 :: carryForwardLate bs (q - b.qty)

/-- Modelled from the spec: the plan-late netting step — locate the
bucket containing the due date and net with forward carry-over. -/
def netBucketsLate : List ForecastBucket → FDate → Rat → List ForecastBucket
  | [], _, _ => []
  | b :: bs, due, q =>
    if b.containsDate due then carryForwardLate (b :: bs) q
    else b :: netBucketsLate bs due q

/-- Modelled from the spec: the netting step of
`ForecastSolver::solve` against the matched forecast, for an order with
the given due date and quantity, dispatching on the forecast's
plan-late / plan-short policy. -/
def ForecastSolver.netDemandFromForecast (_ : ForecastSolver) (fc : Forecast)
    (due : FDate) (q : Rat) : Forecast :=
  { fc with buckets :=
      if fc.planLate then netBucketsLate fc.buckets due q
      else netBucketsShort fc.buckets due q }

theorem clampBucket_eq (b : ForecastBucket) (q : Rat) :
    (if q ≤ b.qty then b.setQty (b.qty - q) else b.setQty 0)
      = b.setQty (max (b.qty - q) 0) := by
  by_cases h : q ≤ b.qty
  · rw [if_pos h, max_eq_left (sub_nonneg.mpr h)]
  · rw [if_neg h, max_eq_right (by linarith [lt_of_not_le h])]

theorem netBucketsShort_split (due : FDate) (q : Rat) (pre : List ForecastBucket)
    (b : ForecastBucket) (post : List ForecastBucket)
    (hpre : ∀ x ∈ pre, x.containsDate due = false) (hb : b.containsDate due = true) :
    netBucketsShort (pre ++ b :: post) due q
      = pre ++ b.setQty (max (b.qty - q) 0) :: post := by
  induction pre with
  | nil => simp [netBucketsShort, hb, clampBucket_eq]
  | cons a pre ih =>
    have ha : a.containsDate due = false := hpre a (List.mem_cons_self a pre)
    have hrest : ∀ x ∈ pre, x.containsDate due = false :=
      fun x hx => hpre x (List.mem_cons_of_mem a hx)
    simp only [List.cons_append, netBucketsShort, ha, Bool.false_eq_true, if_neg,
      not_false_iff]
    exact congrArg (a :: .) (ih hrest)

theorem exists_first_containing (due : FDate) (bs : List ForecastBucket)
    (hmatch : ∃ b ∈ bs, b.containsDate due = true) :
    ∃ pre b post, bs = pre ++ b :: post ∧
      (∀ x ∈ pre, x.containsDate due = false) ∧ b.containsDate due = true := by
  induction bs with
  | nil => obtain ⟨b, hb, _⟩ := hmatch; cases hb
  | cons a bs ih =>
    by_cases ha : a.containsDate due
    · refine ⟨[], a, bs, rfl, ?_, ha⟩
      intro x hx
      cases hx
    · have hmatch2 : ∃ b ∈ bs, b.containsDate due = true := by
        obtain ⟨b, hb, hc⟩ := hmatch
        rcases List.mem_cons.mp hb with rfl | hb2
        · exact absurd hc ha
        · exact ⟨b, hb2, hc⟩
      obtain ⟨pre, b, post, rfl, hpre, hb⟩ := ih hmatch2
      refine ⟨a :: pre, b, post, rfl, ?_, hb⟩
      intro x hx
      rcases List.mem_cons.mp hx with rfl | hx2
      · simpa using ha
      · exact hpre x hx2

/-- C7: netting an order (due date `due`, quantity `q`) against a
plan-short forecast whose buckets are nonnegative: the first bucket
containing the due date is decremented by `q` clamped at zero — it ends
exactly at 0 whenever `q` exceeds its remaining quantity — all other
buckets are untouched and no bucket quantity ever becomes negative. -/
theorem solve_netting_clamp (s : ForecastSolver) (fc : Forecast) (due : FDate) (q : Rat)
    (hshort : fc.planLate = false)
    (hpos : ∀ x ∈ fc.buckets, 0 ≤ x.qty)
    (hmatch : ∃ x ∈ fc.buckets, x.containsDate due = true) :
    ∃ pre b post, fc.buckets = pre ++ b :: post ∧
      (∀ x ∈ pre, x.containsDate due = false) ∧ b.containsDate due = true ∧
      (s.netDemandFromForecast fc due q).buckets
        = pre ++ b.setQty (max (b.qty - q) 0) :: post ∧
      (b.qty < q → (b.setQty (max (b.qty - q) 0)).qty = 0) ∧
      (∀ x ∈ (s.netDemandFromForecast fc due q).buckets, 0 ≤ x.qty) := by
  obtain ⟨pre, b, post, hsplit, hpre, hb⟩ := exists_first_containing due fc.buckets hmatch
  have hnet : (s.netDemandFromForecast fc due q).buckets
      = pre ++ b.setQty (max (b.qty - q) 0) :: post := by
    simp [ForecastSolver.netDemandFromForecast, hshort, hsplit,
      netBucketsShort_split due q pre b post hpre hb]
  refine ⟨pre, b, post, hsplit, hpre, hb, hnet, ?_, ?_⟩
  · intro hlt
    rw [qty_setQty, max_eq_right (by linarith)]
  · intro x hx
    rw [hnet] at hx
    rcases List.mem_append.mp hx with hx1 | hx2
    · exact hpos x (hsplit ▸ List.mem_append_left _ hx1)
    · rcases List.mem_cons.mp hx2 with rfl | hx3
      · rw [qty_setQty]
        exact le_max_right _ _
      · exact hpos x (hsplit ▸ List.mem_append_right _ (List.mem_cons_of_mem _ hx3))

def c7B : ForecastBucket :=
  { base := { name := "b7", quantity := 100 }, weight := 1, timebucket := (0, 10) }

def c7F : Forecast := { name := "FC7", calptr := some ⟨[]⟩, buckets := [c7B] }

def c7S : ForecastSolver := { name := "S7" }

theorem solve_netting_clamp_witness :
    (c7F.planLate = false ∧ (∀ x ∈ c7F.buckets, 0 ≤ x.qty) ∧
      (∃ x ∈ c7F.buckets, x.containsDate 5 = true)) ∧
    (∃ pre b post, c7F.buckets = pre ++ b :: post ∧
      (∀ x ∈ pre, x.containsDate 5 = false) ∧ b.containsDate 5 = true ∧
      (c7S.netDemandFromForecast c7F 5 150).buckets
        = pre ++ b.setQty (max (b.qty - 150) 0) :: post ∧
      (b.qty < 150 → (b.setQty (max (b.qty - 150) 0)).qty = 0) ∧
      (∀ x ∈ (c7S.netDemandFromForecast c7F 5 150).buckets, 0 ≤ x.qty)) :=
  ⟨⟨rfl, by norm_num [c7F, c7B, ForecastBucket.qty], by decide⟩,
   solve_netting_clamp c7S c7F 5 150 rfl
     (by norm_num [c7F, c7B, ForecastBucket.qty]) (by decide)⟩

theorem max_clamp_twice (x q : Rat) (hx : 0 ≤ x) (hq : 0 ≤ q) :
    max (max (x - q) 0 - q) 0 = max (x - 2 * q) 0 := by
  rcases le_total (x - q) 0 with h | h
  · rw [max_eq_right h, zero_sub, max_eq_right (neg_nonpos.mpr hq),
      max_eq_right (by linarith)]
  · rw [max_eq_left h]
    congr 1
    ring

theorem carryForwardLate_cons (b : ForecastBucket) (post : List ForecastBucket) (q : Rat) :
    carryForwardLate (b :: post) q
      = b.setQty (max (b.qty - q) 0)
          :: (if q ≤ b.qty then post else carryForwardLate post (q - b.qty)) := by
  simp only [carryForwardLate]
  by_cases h : q ≤ b.qty
  · rw [if_pos h, if_pos h, max_eq_left (sub_nonneg.mpr h)]
  · rw [if_neg h, if_neg h, max_eq_right (by linarith [lt_of_not_le h])]

theorem netBucketsLate_split (due : FDate) (q : Rat) (pre : List ForecastBucket)
    (b : ForecastBucket) (post : List ForecastBucket)
    (hpre : ∀ x ∈ pre, x.containsDate due = false) (hb : b.containsDate due = true) :
    netBucketsLate (pre ++ b :: post) due q = pre ++ carryForwardLate (b :: post) q := by
  induction pre with
  | nil => simp [netBucketsLate, hb]
  | cons a pre ih =>
    have ha : a.containsDate due = false := hpre a (List.mem_cons_self a pre)
    have hrest : ∀ x ∈ pre, x.containsDate due = false :=
      fun x hx => hpre x (List.mem_cons_of_mem a hx)
    simp only [List.cons_append, netBucketsLate, ha, Bool.false_eq_true, if_neg,
      not_false_iff]
    exact congrArg (a :: .) (ih hrest)

theorem netStep_matched (s : ForecastSolver) (fc : Forecast) (due : FDate) (q : Rat)
    (pre : List ForecastBucket) (b : ForecastBucket) (post : List ForecastBucket)
    (hsplit : fc.buckets = pre ++ b :: post)
    (hpre : ∀ x ∈ pre, x.containsDate due = false) (hb : b.containsDate due = true) :
    ∃ rest, (s.netDemandFromForecast fc due q).buckets
        = pre ++ b.setQty (max (b.qty - q) 0) :: rest ∧
      (fc.planLate = false → rest = post) := by
  by_cases hpl : fc.planLate = true
  · refine ⟨if q ≤ b.qty then post else carryForwardLate post (q - b.qty), ?_, ?_⟩
    · simp only [ForecastSolver.netDemandFromForecast, hpl, if_pos, hsplit]
      rw [netBucketsLate_split due q pre b post hpre hb, carryForwardLate_cons]
    · intro hps
      rw [hps] at hpl
      cases hpl
  · have hpl2 : fc.planLate = false := by simpa using hpl
    refine ⟨post, ?_, fun _ => rfl⟩
    simp only [ForecastSolver.netDemandFromForecast, hpl2, Bool.false_eq_true, if_neg,
      not_false_iff, hsplit]
    exact netBucketsShort_split due q pre b post hpre hb

/-- C8: with the solver in manual mode, invoking the netting step twice
for the same unchanged order decrements the matched bucket twice,
whatever the matched forecast's plan-late / plan-short policy: the
matched bucket ends at its original quantity minus two times the order
quantity, clamped at zero (and under plan-short the remaining buckets
are exactly the original ones) — solve is not idempotent and
double-netting is not prevented. -/
theorem solve_twice_double_nets (s : ForecastSolver) (fc : Forecast) (due : FDate) (q : Rat)
    (hman : s.automatic = false) (hq : 0 ≤ q)
    (hpos : ∀ x ∈ fc.buckets, 0 ≤ x.qty)
    (hmatch : ∃ x ∈ fc.buckets, x.containsDate due = true) :
    ∃ pre b post, fc.buckets = pre ++ b :: post ∧
      (∀ x ∈ pre, x.containsDate due = false) ∧ b.containsDate due = true ∧
      ∃ rest,
        (s.netDemandFromForecast (s.netDemandFromForecast fc due q) due q).buckets
          = pre ++ b.setQty (max (b.qty - 2 * q) 0) :: rest ∧
        (fc.planLate = false → rest = post) := by
  obtain ⟨pre, b, post, hsplit, hpre, hb⟩ := exists_first_containing due fc.buckets hmatch
  have hbq : 0 ≤ b.qty := by
    refine hpos b ?_
    rw [hsplit]
    exact List.mem_append_right _ (List.mem_cons_self _ _)
  obtain ⟨rest1, h1, h1s⟩ := netStep_matched s fc due q pre b post hsplit hpre hb
  have hb2 : (b.setQty (max (b.qty - q) 0)).containsDate due = true := hb
  obtain ⟨rest2, h2, h2s⟩ := netStep_matched s (s.netDemandFromForecast fc due q) due q
    pre (b.setQty (max (b.qty - q) 0)) rest1 h1 hpre hb2
  refine ⟨pre, b, post, hsplit, hpre, hb, rest2, ?_, ?_⟩
  · rw [h2]
    have hcollapse : (b.setQty (max (b.qty - q) 0)).setQty
        (max ((b.setQty (max (b.qty - q) 0)).qty - q) 0)
          = b.setQty (max (b.qty - 2 * q) 0) := by
      rw [qty_setQty]
      show b.setQty (max (max (b.qty - q) 0 - q) 0) = b.setQty (max (b.qty - 2 * q) 0)
      rw [max_clamp_twice b.qty q hbq hq]
    rw [hcollapse]
  · intro hps
    have hps2 : (s.netDemandFromForecast fc due q).planLate = false := hps
    rw [h2s hps2, h1s hps]

def c8B : ForecastBucket :=
  { base := { name := "b8", quantity := 100 }, weight := 1, timebucket := (0, 10) }

def c8F : Forecast := { name := "FC8", calptr := some ⟨[]⟩, buckets := [c8B] }

def c8S : ForecastSolver := { name := "S8", automatic := false }

theorem solve_twice_double_nets_witness :
    (c8S.automatic = false ∧ (0 : Rat) ≤ 30 ∧
      (∀ x ∈ c8F.buckets, 0 ≤ x.qty) ∧
      (∃ x ∈ c8F.buckets, x.containsDate 5 = true)) ∧
    (∃ pre b post, c8F.buckets = pre ++ b :: post ∧
      (∀ x ∈ pre, x.containsDate 5 = false) ∧ b.containsDate 5 = true ∧
      ∃ rest,
        (c8S.netDemandFromForecast (c8S.netDemandFromForecast c8F 5 30) 5 30).buckets
          = pre ++ b.setQty (max (b.qty - 2 * 30) 0) :: rest ∧
        (c8F.planLate = false → rest = post)) :=
  ⟨⟨rfl, by norm_num, by norm_num [c8F, c8B, ForecastBucket.qty], by decide⟩,
   solve_twice_double_nets c8S c8F 5 30 rfl (by norm_num)
     (by norm_num [c8F, c8B, ForecastBucket.qty]) (by decide)⟩

/-- A dictionary key: a `(item pointer, customer pointer)` pair, as in
`Forecast::MapOfForecasts`. -/
abbrev DKey := Nat × Nat

/-- A dictionary entry: key and the identity (address) of the mapped
`Forecast` instance. -/
abbrev DEntry := DKey × Nat

/-- The strict ordering of dictionary keys: lexicographic comparison of
the two pointers (`std::pair` ordering in the C++ multimap). -/
def keyLt (a b : DKey) : Bool :=
  decide (a.1 < b.1) || (a.1 == b.1 && decide (a.2 < b.2))

/-- Ordered multimap insertion: a new entry goes after all entries with
a key not greater than its own (`std::multimap::insert`). -/
def insertSorted (e : DEntry) : List DEntry → List DEntry
  | [] => [e]
  | x :: xs => if keyLt e.1 x.1 then e :: x :: xs else x :: insertSorted e xs

/-- All forecast identities mapped under a key (dictionary range
lookup with an exact key). -/
def dictLookup (dict : List DEntry) (k : DKey) : List Nat :=
  (dict.filter (fun e => e.1 == k)).map (fun e => e.2)

/-- `Forecast::setItem`.  Modelled from the spec (body in the module's
.cpp file, not among the given sources): remove the dictionary entry of
this forecast under its old `(item, customer)` key, insert it under the
new key, update the item field and propagate the new item to every
existing bucket. -/
def Forecast.setItemOp (f : Forecast) (fid : Nat) (dict : List DEntry) (ni : Nat) :
    Forecast × List DEntry :=
  ({ f with
      item := ni
      buckets := f.buckets.map (fun b => { b with base := b.base.setItemBase ni }) },
   insertSorted ((ni, f.customer), fid) (dict.erase ((f.item, f.customer), fid)))

/-- `Forecast::setCustomer`.  Modelled from the spec (body in the
module's .cpp file, not among the given sources): remove the old
dictionary entry, insert the new one, update the customer field and
propagate the new customer to every existing bucket. -/
def Forecast.setCustomerOp (f : Forecast) (fid : Nat) (dict : List DEntry) (nc : Nat) :
    Forecast × List DEntry :=
  ({ f with
      customer := nc
      buckets := f.buckets.map (fun b => { b with base := b.base.setCustomerBase nc }) },
   insertSorted ((f.item, nc), fid) (dict.erase ((f.item, f.customer), fid)))

theorem mem_insertSorted (a e : DEntry) (l : List DEntry) :
    a ∈ insertSorted e l ↔ a = e ∨ a ∈ l := by
  induction l with
  | nil => simp [insertSorted]
  | cons x xs ih =>
    by_cases h : keyLt e.1 x.1
    · simp [insertSorted, h]
    · simp only [insertSorted, if_neg h, List.mem_cons, ih]
      tauto

theorem filter_erase_self (l : List DEntry) (x : DEntry) (fid : Nat) (hx : x.2 = fid)
    (h : l.filter (fun e => e.2 == fid) = [x]) :
    (l.erase x).filter (fun e => e.2 == fid) = [] := by
  induction l with
  | nil => simp at h
  | cons a l ih =>
    rw [List.erase_cons]
    by_cases hax : a = x
    · subst hax
      rw [if_pos (by simp)]
      have haf : (a.2 == fid) = true := by simp [hx]
      rw [List.filter_cons, if_pos haf] at h
      exact (List.cons_eq_cons.mp h).2
    · rw [if_neg (by simpa using hax)]
      by_cases haf : (a.2 == fid) = true
      · rw [List.filter_cons, if_pos haf] at h
        exact absurd (List.cons_eq_cons.mp h).1 hax
      · have haf' : (a.2 == fid) = false := by simpa using haf
        rw [List.filter_cons, if_neg (by simp [haf'])] at h
        rw [List.filter_cons, if_neg (by simp [haf'])]
        exact ih h

theorem rekey_lookup (dict : List DEntry) (oldKey newKey : DKey) (fid : Nat)
    (huniq : dict.filter (fun e => e.2 == fid) = [(oldKey, fid)])
    (hne : newKey ≠ oldKey) :
    fid ∉ dictLookup (insertSorted (newKey, fid) (dict.erase (oldKey, fid))) oldKey ∧
    fid ∈ dictLookup (insertSorted (newKey, fid) (dict.erase (oldKey, fid))) newKey := by
  constructor
  · intro hmem
    rw [dictLookup, List.mem_map] at hmem
    obtain ⟨e, he, hev⟩ := hmem
    have he2 := List.mem_filter.mp he
    have hek : e.1 = oldKey := by simpa using he2.2
    rcases (mem_insertSorted e (newKey, fid) (dict.erase (oldKey, fid))).mp he2.1 with
      rfl | hin
    · exact hne hek
    · have hf : e ∈ (dict.erase (oldKey, fid)).filter (fun x => x.2 == fid) :=
        List.mem_filter.mpr ⟨hin, by simp [hev]⟩
      rw [filter_erase_self dict (oldKey, fid) fid rfl huniq] at hf
      cases hf
  · rw [dictLookup, List.mem_map]
    refine ⟨(newKey, fid), ?_, rfl⟩
    exact List.mem_filter.mpr
      ⟨(mem_insertSorted (newKey, fid) (newKey, fid) (dict.erase (oldKey, fid))).mpr
        (Or.inl rfl), by simp⟩

/-- C6: for a forecast registered once in the dictionary under its
`(item, customer)` key, changing the item (or the customer) removes the
old dictionary entry and inserts one under the new key — a lookup by the
old key no longer returns the forecast's identity, a lookup by the new
key returns the same identity — and the new item (customer) is stored
on the forecast and propagated to every existing bucket. -/
theorem setItem_setCustomer_dictionary (f : Forecast) (fid : Nat) (dict : List DEntry)
    (ni nc : Nat)
    (huniq : dict.filter (fun e => e.2 == fid) = [((f.item, f.customer), fid)]) :
    (ni ≠ f.item →
      fid ∉ dictLookup (f.setItemOp fid dict ni).2 (f.item, f.customer) ∧
      fid ∈ dictLookup (f.setItemOp fid dict ni).2 (ni, f.customer) ∧
      (f.setItemOp fid dict ni).1.item = ni ∧
      (f.setItemOp fid dict ni).1.buckets
        = f.buckets.map (fun b => { b with base := b.base.setItemBase ni }) ∧
      (∀ b ∈ (f.setItemOp fid dict ni).1.buckets, b.base.item = ni)) ∧
    (nc ≠ f.customer →
      fid ∉ dictLookup (f.setCustomerOp fid dict nc).2 (f.item, f.customer) ∧
      fid ∈ dictLookup (f.setCustomerOp fid dict nc).2 (f.item, nc) ∧
      (f.setCustomerOp fid dict nc).1.customer = nc ∧
      (f.setCustomerOp fid dict nc).1.buckets
        = f.buckets.map (fun b => { b with base := b.base.setCustomerBase nc }) ∧
      (∀ b ∈ (f.setCustomerOp fid dict nc).1.buckets, b.base.customer = nc)) := by
  constructor
  · intro hni
    have hkeys : ((ni, f.customer) : DKey) ≠ (f.item, f.customer) := by
      intro hcon
      exact hni (congrArg Prod.fst hcon)
    obtain ⟨hold, hnew⟩ := rekey_lookup dict (f.item, f.customer) (ni, f.customer) fid huniq hkeys
    refine ⟨hold, hnew, rfl, rfl, ?_⟩
    intro b hb
    simp only [Forecast.setItemOp, List.mem_map] at hb
    obtain ⟨b0, hb0, rfl⟩ := hb
    rfl
  · intro hnc
    have hkeys : ((f.item, nc) : DKey) ≠ (f.item, f.customer) := by
      intro hcon
      exact hnc (congrArg Prod.snd hcon)
    obtain ⟨hold, hnew⟩ := rekey_lookup dict (f.item, f.customer) (f.item, nc) fid huniq hkeys
    refine ⟨hold, hnew, rfl, rfl, ?_⟩
    intro b hb
    simp only [Forecast.setCustomerOp, List.mem_map] at hb
    obtain ⟨b0, hb0, rfl⟩ := hb
    rfl

def c6B : ForecastBucket := { base := demandInit "b6", weight := 1, timebucket := (0, 10) }

def c6F : Forecast := { name := "FC6", item := 1, customer := 1, buckets := [c6B] }

def c6D : List DEntry := [((1, 1), 5)]

theorem setItem_setCustomer_dictionary_witness :
    (c6D.filter (fun e => e.2 == 5) = [((c6F.item, c6F.customer), 5)] ∧
      (2 ≠ c6F.item) ∧ (3 ≠ c6F.customer)) ∧
    (5 ∉ dictLookup (c6F.setItemOp 5 c6D 2).2 (c6F.item, c6F.customer) ∧
      5 ∈ dictLookup (c6F.setItemOp 5 c6D 2).2 (2, c6F.customer) ∧
      (c6F.setItemOp 5 c6D 2).1.item = 2 ∧
      (c6F.setItemOp 5 c6D 2).1.buckets
        = c6F.buckets.map (fun b => { b with base := b.base.setItemBase 2 }) ∧
      (∀ b ∈ (c6F.setItemOp 5 c6D 2).1.buckets, b.base.item = 2)) ∧
    (5 ∉ dictLookup (c6F.setCustomerOp 5 c6D 3).2 (c6F.item, c6F.customer) ∧
      5 ∈ dictLookup (c6F.setCustomerOp 5 c6D 3).2 (c6F.item, 3) ∧
      (c6F.setCustomerOp 5 c6D 3).1.customer = 3 ∧
      (c6F.setCustomerOp 5 c6D 3).1.buckets
        = c6F.buckets.map (fun b => { b with base := b.base.setCustomerBase 3 }) ∧
      (∀ b ∈ (c6F.setCustomerOp 5 c6D 3).1.buckets, b.base.customer = 3)) :=
  ⟨⟨by decide, by decide, by decide⟩,
   (setItem_setCustomer_dictionary c6F 5 c6D 2 3 (by decide)).1 (by decide),
   (setItem_setCustomer_dictionary c6F 5 c6D 2 3 (by decide)).2 (by decide)⟩

/-- Scan of the destructor loop body: erase the first entry whose mapped
value is this forecast, leave everything else as it is. -/
def eraseFirstSelf : List DEntry → Nat → List DEntry
  | [], _ => []
  | e :: es, self => if e.2 == self then es else e :: eraseFirstSelf es self

/-- `~Forecast()`, translated from the header: iterate the dictionary
from `lower_bound((item, customer))` to the end and erase the first
entry whose mapped value is this forecast, then return.  On a key-sorted
dictionary `lower_bound` is the position after the longest prefix of
keys strictly below the search key, so the loop acts on
`dropWhile (key < k)`. -/
def forecastDtorErase (dict : List DEntry) (k : DKey) (self : Nat) : List DEntry :=
  dict.takeWhile (fun e => keyLt e.1 k)
    ++ eraseFirstSelf (dict.dropWhile (fun e => keyLt e.1 k)) self

/-- The destructor's dictionary update for a forecast with identity
`fid`: search key is the forecast's current `(item, customer)` pair. -/
def Forecast.destructorUpdate (f : Forecast) (fid : Nat) (dict : List DEntry) :
    List DEntry :=
  forecastDtorErase dict (f.item, f.customer) fid

/-- The multimap keeps its entries ordered by key (non-strictly, since a
multimap admits duplicate keys). -/
def dictSorted (dict : List DEntry) : Prop :=
  dict.Pairwise (fun a b => keyLt b.1 a.1 = false)

theorem keyLt_le_trans (x y z : DKey) (h1 : keyLt x z = false) (h2 : keyLt y x = false) :
    keyLt y z = false := by
  simp only [keyLt, Bool.or_eq_false_iff, Bool.and_eq_false_iff,
    decide_eq_false_iff_not, beq_eq_false_iff_ne, Nat.not_lt] at h1 h2 ⊢
  omega

theorem sorted_dropWhile_ge (dict : List DEntry) (k : DKey) (hs : dictSorted dict) :
    ∀ e ∈ dict.dropWhile (fun x => keyLt x.1 k), keyLt e.1 k = false := by
  induction dict with
  | nil =>
    intro e he
    simp [List.dropWhile] at he
  | cons a l ih =>
    rw [dictSorted, List.pairwise_cons] at hs
    rw [List.dropWhile_cons]
    by_cases hpa : keyLt a.1 k = true
    · rw [if_pos hpa]
      exact ih hs.2
    · have hpa' : keyLt a.1 k = false := by simpa using hpa
      rw [if_neg (by simp [hpa'])]
      intro e he
      rcases List.mem_cons.mp he with rfl | he2
      · exact hpa'
      · exact keyLt_le_trans a.1 e.1 k hpa' (hs.1 e he2)

theorem eraseFirstSelf_spec (es : List DEntry) (self : Nat) :
    (eraseFirstSelf es self = es ∧ ∀ e ∈ es, e.2 ≠ self) ∨
    (∃ l1 e l2, es = l1 ++ e :: l2 ∧ e.2 = self ∧ (∀ x ∈ l1, x.2 ≠ self) ∧
      eraseFirstSelf es self = l1 ++ l2) := by
  induction es with
  | nil =>
    left
    refine ⟨rfl, ?_⟩
    intro e he
    cases he
  | cons a es ih =>
    by_cases ha : a.2 = self
    · right
      refine ⟨[], a, es, rfl, ha, ?_, ?_⟩
      · intro x hx
        cases hx
      · simp [eraseFirstSelf, ha]
    · have ha' : (a.2 == self) = false := by simpa using ha
      rcases ih with ⟨h1, h2⟩ | ⟨l1, e, l2, hsp, he, hl1, herase⟩
      · left
        constructor
        · simp [eraseFirstSelf, ha', h1]
        · intro x hx
          rcases List.mem_cons.mp hx with rfl | hx2
          · exact ha
          · exact h2 x hx2
      · right
        refine ⟨a :: l1, e, l2, by rw [List.cons_append, ← hsp], he, ?_, ?_⟩
        · intro x hx
          rcases List.mem_cons.mp hx with rfl | hx2
          · exact ha
          · exact hl1 x hx2
        · simp [eraseFirstSelf, ha', herase]

/-- C10: on a key-sorted dictionary, the `Forecast` destructor update
either leaves the dictionary unchanged, or erases exactly one entry;
the erased entry maps to this forecast's identity, does not sort
strictly below the forecast's current `(item, customer)` key (the loop
starts at the lower bound of that key), and all other entries are kept
in order. -/
theorem forecast_dtor_spec (f : Forecast) (fid : Nat) (dict : List DEntry)
    (hs : dictSorted dict) :
    f.destructorUpdate fid dict = dict ∨
    (∃ l1 e l2, dict = l1 ++ e :: l2 ∧ e.2 = fid ∧
      keyLt e.1 (f.item, f.customer) = false ∧
      f.destructorUpdate fid dict = l1 ++ l2) := by
  have hsplit : dict.takeWhile (fun e => keyLt e.1 (f.item, f.customer))
      ++ dict.dropWhile (fun e => keyLt e.1 (f.item, f.customer)) = dict :=
    List.takeWhile_append_dropWhile (fun e => keyLt e.1 (f.item, f.customer)) dict
  rcases eraseFirstSelf_spec
      (dict.dropWhile (fun e => keyLt e.1 (f.item, f.customer))) fid with
    ⟨h1, _⟩ | ⟨l1, e, l2, hd, he, _, herase⟩
  · left
    rw [Forecast.destructorUpdate, forecastDtorErase, h1, hsplit]
  · right
    refine ⟨dict.takeWhile (fun x => keyLt x.1 (f.item, f.customer)) ++ l1, e, l2,
      ?_, he, ?_, ?_⟩
    · rw [List.append_assoc, ← hd, hsplit]
    · refine sorted_dropWhile_ge dict (f.item, f.customer) hs e ?_
      rw [hd]
      exact List.mem_append_right _ (List.mem_cons_self _ _)
    · rw [Forecast.destructorUpdate, forecastDtorErase, herase, List.append_assoc]

instance (dict : List DEntry) : Decidable (dictSorted dict) := by
  unfold dictSorted
  infer_instance

def c10F : Forecast := { name := "FC10", item := 2, customer := 2 }

def c10D : List DEntry := [((1, 1), 10), ((2, 2), 20)]

theorem forecast_dtor_spec_witness :
    dictSorted c10D ∧
    (c10F.destructorUpdate 20 c10D = c10D ∨
      (∃ l1 e l2, c10D = l1 ++ e :: l2 ∧ e.2 = 20 ∧
        keyLt e.1 (c10F.item, c10F.customer) = false ∧
        c10F.destructorUpdate 20 c10D = l1 ++ l2)) :=
  ⟨by decide, forecast_dtor_spec c10F 20 c10D (by decide)⟩
